import Mathlib

/-!
Verification of the real-time audio capture, bounded-buffer and duplex
streaming/playback pipeline of the mozhi-translator repository.

Definitions are shallow embeddings of the TypeScript source:
- `pushChunk`, `ondataavailable`, `runEvents`, `onstopFinalize`,
  `startRecording` model src/hooks/useAudioRecording.ts;
- `scheduleSegment`, `runSchedule`, `onMessageAudio`, `disconnect`,
  `stepLive` model src/components/LiveCoach.tsx;
- `processErrorTitle` models the catch categorization of
  src/components/DraftingAssistant.tsx (processAudioBlob).
-/

namespace Mozhi

/-- Capacity of the rolling recording buffer
(useAudioRecording.ts line 4: `const MAX_RECORDING_CHUNKS = 300`). -/
def MAX_RECORDING_CHUNKS : Nat := 300

/-- An audio chunk delivered by `ondataavailable`; `data` stands for the
chunk's bytes (a `Blob` in the source). -/
structure Chunk where
  data : List Nat
deriving DecidableEq

/-- Byte size of the chunk (`event.data.size` in the source). -/
def Chunk.size (c : Chunk) : Nat := c.data.length

/-- Rolling-buffer push, from useAudioRecording.ts lines 142-147:
`audioChunksRef.current.push(event.data)` followed by
`if (length > MAX_RECORDING_CHUNKS) splice(1, 1)` (remove the element at
index 1, keeping the header at index 0). Parametric in the capacity `cap`
so that the spec's `C = 5` example is statable. -/
def pushChunk {α : Type} (cap : Nat) (buf : List α) (c : α) : List α :=
  if (buf ++ [c]).length > cap then (buf ++ [c]).eraseIdx 1 else buf ++ [c]

/-- The mutable recorder state touched by `ondataavailable`:
`audioChunksRef.current` and the `bufferCount` React state. -/
structure RecorderBuf where
  audioChunks : List Chunk
  bufferCount : Nat
deriving DecidableEq

/-- Handler from useAudioRecording.ts lines 140-150: only chunks with
`event.data.size > 0` are pushed; afterwards `bufferCount` is set to the
list's length. A zero-size event leaves the state untouched. -/
def ondataavailable (s : RecorderBuf) (event : Chunk) : RecorderBuf :=
  if event.size > 0 then
    let chunks := pushChunk MAX_RECORDING_CHUNKS s.audioChunks event
    { audioChunks := chunks, bufferCount := chunks.length }
  else s

/-- Folding a whole sequence of `ondataavailable` events over the state. -/
def runEvents (s : RecorderBuf) (evs : List Chunk) : RecorderBuf :=
  evs.foldl ondataavailable s

/- Helper lemmas about `pushChunk`. -/

theorem pushChunk_ne_nil {α : Type} (cap : Nat) (buf : List α) (c : α) :
    pushChunk cap buf c ≠ [] := by
  unfold pushChunk
  split
  · cases buf with
    | nil => simp [List.eraseIdx]
    | cons a t => simp [List.eraseIdx]
  · simp

theorem pushChunk_head? {α : Type} (cap : Nat) (buf : List α) (c : α)
    (h : buf ≠ []) : (pushChunk cap buf c).head? = buf.head? := by
  unfold pushChunk
  cases buf with
  | nil => exact absurd rfl h
  | cons a t =>
    split <;> simp [List.eraseIdx]

theorem pushChunk_length_le {α : Type} (cap : Nat) (hcap : 1 ≤ cap)
    (buf : List α) (c : α) (h : buf.length ≤ cap) :
    (pushChunk cap buf c).length ≤ cap := by
  unfold pushChunk
  by_cases hl : (buf ++ [c]).length > cap
  · cases buf with
    | nil => simp at hl; omega
    | cons a t =>
      have : (a :: t ++ [c]).eraseIdx 1 = a :: (t ++ [c]).eraseIdx 0 := by
        simp [List.eraseIdx]
      simp only [hl, if_pos, this]
      cases t with
      | nil => simpa using hcap
      | cons b t' => simp at h ⊢; omega
  · simp only [hl, if_neg, not_false_iff]
    simp at hl ⊢
    omega

theorem foldl_pushChunk_length {α : Type} (cap : Nat) (hcap : 1 ≤ cap)
    (cs : List α) (buf : List α) (h : buf.length ≤ cap) :
    (cs.foldl (pushChunk cap) buf).length ≤ cap := by
  induction cs generalizing buf with
  | nil => simpa using h
  | cons c rest ih =>
    simpa using ih (pushChunk cap buf c) (pushChunk_length_le cap hcap buf c h)

theorem foldl_pushChunk_head? {α : Type} (cap : Nat)
    (cs : List α) (buf : List α) (h : buf ≠ []) :
    (cs.foldl (pushChunk cap) buf).head? = buf.head? := by
  induction cs generalizing buf with
  | nil => rfl
  | cons c rest ih =>
    have h1 := pushChunk_ne_nil cap buf c
    calc ((c :: rest).foldl (pushChunk cap) buf).head?
        = (rest.foldl (pushChunk cap) (pushChunk cap buf c)).head? := rfl
      _ = (pushChunk cap buf c).head? := ih _ h1
      _ = buf.head? := pushChunk_head? cap buf c h

/-- C1: for every sequence of pushes, the buffer length never exceeds
MAX_RECORDING_CHUNKS = 300, and once at least one chunk has been pushed the
element at index 0 is the first chunk ever pushed (the header is never
evicted). -/
theorem audioChunkBuffer_capacity_header (cs : List Chunk) (h : cs ≠ []) :
    (cs.foldl (pushChunk MAX_RECORDING_CHUNKS) []).length ≤ MAX_RECORDING_CHUNKS ∧
    (cs.foldl (pushChunk MAX_RECORDING_CHUNKS) []).head? = cs.head? := by
  constructor
  · exact foldl_pushChunk_length MAX_RECORDING_CHUNKS (by norm_num [MAX_RECORDING_CHUNKS]) cs [] (by simp)
  · cases cs with
    | nil => exact absurd rfl h
    | cons c rest =>
      have hpush : pushChunk MAX_RECORDING_CHUNKS ([] : List Chunk) c = [c] := by
        simp [pushChunk, MAX_RECORDING_CHUNKS]
      calc ((c :: rest).foldl (pushChunk MAX_RECORDING_CHUNKS) []).head?
          = (rest.foldl (pushChunk MAX_RECORDING_CHUNKS)
              (pushChunk MAX_RECORDING_CHUNKS [] c)).head? := rfl
        _ = (rest.foldl (pushChunk MAX_RECORDING_CHUNKS) [c]).head? := by rw [hpush]
        _ = ([c] : List Chunk).head? := foldl_pushChunk_head? _ rest [c] (by simp)
        _ = (c :: rest).head? := rfl

/-- Witness for C1 at the concrete two-push sequence. -/
theorem audioChunkBuffer_capacity_header_witness :
    ([Chunk.mk [1], Chunk.mk [2]] : List Chunk) ≠ [] ∧
    (([Chunk.mk [1], Chunk.mk [2]] : List Chunk).foldl
        (pushChunk MAX_RECORDING_CHUNKS) []).length ≤ MAX_RECORDING_CHUNKS ∧
    (([Chunk.mk [1], Chunk.mk [2]] : List Chunk).foldl
        (pushChunk MAX_RECORDING_CHUNKS) []).head? =
      ([Chunk.mk [1], Chunk.mk [2]] : List Chunk).head? := by
  refine ⟨by simp, ?_⟩
  exact audioChunkBuffer_capacity_header [Chunk.mk [1], Chunk.mk [2]] (by simp)

/- C3 helper: the freshly pushed chunk always ends up at the back. -/

theorem pushChunk_getLast? {α : Type} (cap : Nat) (hcap : 2 ≤ cap)
    (buf : List α) (c : α) : (pushChunk cap buf c).getLast? = some c := by
  unfold pushChunk
  split
  · cases buf with
    | nil => simp_all
    | cons a t =>
      cases t with
      | nil => simp_all; omega
      | cons b t' =>
        have : ((a :: b :: t') ++ [c]).eraseIdx 1 = (a :: t') ++ [c] := by
          simp [List.eraseIdx]
        rw [this, List.getLast?_concat]
  · exact List.getLast?_concat _

/-- C3: push appends at the end (the new chunk is the last element), never
evicts index 0, evicts exactly index 1 when the capacity is exceeded, and
on the spec's example (capacity 5, chunks h=0, c1..c7 = 1..7) the final
buffer is [h, c4, c5, c6, c7]. -/
theorem pushChunk_contract :
    (∀ (buf : List Nat) (x : Nat), (pushChunk 5 buf x).getLast? = some x) ∧
    (∀ (buf : List Nat) (x : Nat), buf ≠ [] →
      (pushChunk 5 buf x).head? = buf.head?) ∧
    (∀ (buf : List Nat) (x : Nat), (buf ++ [x]).length > 5 →
      pushChunk 5 buf x = (buf ++ [x]).eraseIdx 1) ∧
    ([0, 1, 2, 3, 4, 5, 6, 7].foldl (pushChunk 5) ([] : List Nat)
      = [0, 4, 5, 6, 7]) := by
  refine ⟨?_, ?_, ?_, ?_⟩
  · exact fun buf x => pushChunk_getLast? 5 (by norm_num) buf x
  · exact fun buf x h => pushChunk_head? 5 buf x h
  · intro buf x h
    unfold pushChunk
    rw [if_pos h]
  · decide

/-- Witness for C3, discharging the hypotheses of the second and third
conjuncts at concrete inputs. -/
theorem pushChunk_contract_witness :
    (([10, 20] : List Nat) ≠ [] ∧
      (pushChunk 5 [10, 20] 30).head? = ([10, 20] : List Nat).head?) ∧
    ((([10, 20, 30, 40, 50] : List Nat) ++ [60]).length > 5 ∧
      pushChunk 5 [10, 20, 30, 40, 50] 60
        = (([10, 20, 30, 40, 50] : List Nat) ++ [60]).eraseIdx 1) := by
  refine ⟨⟨by decide, ?_⟩, ⟨by decide, ?_⟩⟩
  · exact pushChunk_contract.2.1 [10, 20] 30 (by decide)
  · exact pushChunk_contract.2.2.1 [10, 20, 30, 40, 50] 60 (by decide)

/- C10 helper: every chunk surviving in the buffer was appended with a
positive size. -/

theorem mem_pushChunk_subset {α : Type} (cap : Nat) (buf : List α) (c : α)
    {x : α} (hx : x ∈ pushChunk cap buf c) : x ∈ buf ++ [c] := by
  unfold pushChunk at hx
  split at hx
  · exact List.eraseIdx_subset _ _ hx
  · exact hx

theorem runEvents_sizes_pos (s : RecorderBuf)
    (hs : ∀ c ∈ s.audioChunks, 0 < c.size) (evs : List Chunk) :
    ∀ c ∈ (runEvents s evs).audioChunks, 0 < c.size := by
  induction evs generalizing s with
  | nil => exact hs
  | cons e rest ih =>
    have hstep : ∀ c ∈ (ondataavailable s e).audioChunks, 0 < c.size := by
      intro c hc
      unfold ondataavailable at hc
      split at hc
      · rename_i hpos
        simp only at hc
        rcases List.mem_append.mp (mem_pushChunk_subset _ _ _ hc) with h | h
        · exact hs c h
        · simp at h; subst h; exact hpos
      · exact hs c hc
    exact ih (ondataavailable s e) hstep

/-- C10: a chunk-ready event whose data has zero size leaves the chunk
list and the buffer count unchanged (no append, no eviction), and in any
run from the fresh recorder state only chunks with positive size are ever
in the buffer. -/
theorem zeroSizeChunk_noop (s : RecorderBuf) (event : Chunk)
    (h : event.size = 0) :
    ondataavailable s event = s ∧
    (∀ evs : List Chunk,
      ∀ c ∈ (runEvents ⟨[], 0⟩ evs).audioChunks, 0 < c.size) := by
  constructor
  · unfold ondataavailable
    simp [h]
  · intro evs
    exact runEvents_sizes_pos ⟨[], 0⟩ (by simp) evs

/-- Witness for C10 at a concrete zero-size event. -/
theorem zeroSizeChunk_noop_witness :
    (Chunk.mk []).size = 0 ∧
    ondataavailable ⟨[Chunk.mk [5]], 1⟩ (Chunk.mk [])
      = (⟨[Chunk.mk [5]], 1⟩ : RecorderBuf) :=
  ⟨rfl, (zeroSizeChunk_noop ⟨[Chunk.mk [5]], 1⟩ (Chunk.mk []) rfl).1⟩

/-- Scheduling step from LiveCoach.tsx lines 157-164: read the output
device clock, snap nextStartTime forward if it is in the past, start the
segment at nextStartTime, then advance nextStartTime by the segment's
duration. Returns (start time of this segment, new nextStartTime). -/
def scheduleSegment (currentTime duration next : ℚ) : ℚ × ℚ :=
  if next < currentTime then (currentTime, currentTime + duration)
  else (next, next + duration)

/-- Runs the scheduler over a list of (arrival clock time, duration)
pairs, returning the list of start times and the final nextStartTime. -/
def runSchedule (next : ℚ) : List (ℚ × ℚ) → List ℚ × ℚ
  | [] => ([], next)
  | (ct, d) :: rest =>
    let r := scheduleSegment ct d next
    let t := runSchedule r.2 rest
    (r.1 :: t.1, t.2)

/-- Handler body of onmessage (LiveCoach.tsx lines 144-169): the segment
either fails to decode (none — the exception is caught and logged before
any scheduling state is touched) or decodes to a buffer of some duration,
which is then scheduled. Returns (start time, if scheduled, and the new
nextStartTime). The function is total: no failure escapes to the caller. -/
def onMessageAudio (currentTime : ℚ) (seg : Option ℚ) (next : ℚ) :
    Option ℚ × ℚ :=
  match seg with
  | none => (none, next)
  | some d =>
    let r := scheduleSegment currentTime d next
    (some r.1, r.2)

/-- C2: a segment is snapped forward only when nextStartTime is behind the
clock, starts exactly at nextStartTime, and advances it by its duration;
on the spec's trace (durations 1, 3/2, 1/2 arriving at clock times t0,
t0 + 1/5, t0 + 5, with nextStartTime starting at 0) the start times are
t0, t0 + 1 and t0 + 5. -/
theorem playbackScheduler_trace (t0 : ℚ) (h : 0 ≤ t0) :
    (∀ ct d next : ℚ, scheduleSegment ct d next
      = (max next ct, max next ct + d)) ∧
    (runSchedule 0 [(t0, 1), (t0 + 1/5, 3/2), (t0 + 5, 1/2)]).1
      = [t0, t0 + 1, t0 + 5] := by
  constructor
  · intro ct d next
    unfold scheduleSegment
    rcases lt_or_le next ct with hlt | hle
    · rw [if_pos hlt, max_eq_right hlt.le]
    · rw [if_neg (not_lt.mpr hle), max_eq_left hle]
  · simp only [runSchedule, scheduleSegment]
    split_ifs with h1 h2 h3 h2 h3 <;> norm_num <;>
      first
        | (constructor <;> linarith)
        | linarith

/-- Witness for C2 at t0 = 1. -/
theorem playbackScheduler_trace_witness :
    (0 : ℚ) ≤ 1 ∧
    (runSchedule 0 [((1 : ℚ), 1), (1 + 1/5, 3/2), (1 + 5, 1/2)]).1
      = [1, 1 + 1, 1 + 5] :=
  ⟨by norm_num, (playbackScheduler_trace 1 (by norm_num)).2⟩

/-- C8: a decode failure leaves nextStartTime unchanged and schedules
nothing, so the next segment is scheduled exactly as if the failed one had
never arrived; the handler is total, so no failure reaches the caller. -/
theorem decodeFailure_isolated (next ct1 ct2 d : ℚ) :
    (onMessageAudio ct1 none next).1 = none ∧
    (onMessageAudio ct1 none next).2 = next ∧
    onMessageAudio ct2 (some d) (onMessageAudio ct1 none next).2
      = onMessageAudio ct2 (some d) next :=
  ⟨rfl, rfl, rfl⟩

/-- Error record from useAudioRecording.ts (ErrorState). The long
user-facing `message` copy is omitted; `title`, `isPermissionError` and
`errorId` identify the error. -/
structure ErrorSt where
  title : String
  isPermissionError : Bool
  errorId : String
deriving DecidableEq

/-- Error set at useAudioRecording.ts lines 88-93 when permissionDenied is
already true. -/
def stillBlockedError : ErrorSt :=
  { title := "Permission Still Blocked", isPermissionError := true,
    errorId := "permission-blocked-refresh" }

/-- Error set at lines 103-108 and 180-184 on a (fresh) denial. -/
def accessDeniedError : ErrorSt :=
  { title := "Access Denied", isPermissionError := true,
    errorId := "permission-denied" }

/-- Error set at lines 174-177 for any other acquisition failure. -/
def micAccessError : ErrorSt :=
  { title := "Microphone Error", isPermissionError := false,
    errorId := "mic-error" }

/-- Outcome of the navigator.permissions.query call in startRecording
(lines 98-115): reported denied, reported granted/prompt, or the query
itself is unsupported/throws. -/
inductive PermQueryResult
  | denied
  | grantedOrPrompt
  | unsupported
deriving DecidableEq

/-- Outcome of the getUserMedia call (line 118): success, a
NotAllowedError/PermissionDeniedError rejection, or any other failure. -/
inductive GumResult
  | ok
  | notAllowedError
  | otherError
deriving DecidableEq

/-- Result of one startRecording call: the new permissionDenied flag, the
errorState it set, whether recording started, and how many times
getUserMedia was invoked during the call. -/
structure StartOutcome where
  permissionDenied : Bool
  errorState : Option ErrorSt
  isRecording : Bool
  gumCalls : Nat
deriving DecidableEq

/-- startRecording from useAudioRecording.ts lines 84-188, as a function
of the current permissionDenied flag and the environment's responses.
A durably recorded denial short-circuits at lines 87-95 before any
device-acquisition attempt. -/
def startRecording (permissionDenied : Bool) (q : PermQueryResult)
    (g : GumResult) : StartOutcome :=
  if permissionDenied then
    { permissionDenied := true, errorState := some stillBlockedError,
      isRecording := false, gumCalls := 0 }
  else
    match q with
    | .denied =>
      { permissionDenied := true, errorState := some accessDeniedError,
        isRecording := false, gumCalls := 0 }
    | _ =>
      match g with
      | .ok =>
        { permissionDenied := false, errorState := none,
          isRecording := true, gumCalls := 1 }
      | .notAllowedError =>
        { permissionDenied := true, errorState := some accessDeniedError,
          isRecording := false, gumCalls := 1 }
      | .otherError =>
        { permissionDenied := false, errorState := some micAccessError,
          isRecording := false, gumCalls := 1 }

/-- Repeated startRecording calls, threading the permissionDenied flag;
returns the final flag and the total number of getUserMedia calls. -/
def runStarts (pd : Bool) : List (PermQueryResult × GumResult) → Bool × Nat
  | [] => (pd, 0)
  | (q, g) :: rest =>
    let o := startRecording pd q g
    let t := runStarts o.permissionDenied rest
    (t.1, o.gumCalls + t.2)

theorem startRecording_blocked_state (q : PermQueryResult) (g : GumResult) :
    (startRecording true q g).permissionDenied = true := rfl

/-- C4: once permissionDenied is recorded, every subsequent startRecording
call performs zero getUserMedia calls (over any sequence of environment
responses) and reports the distinct still-blocked permission error, whose
errorId differs from the original denial error. -/
theorem startRecording_blocked_shortCircuit (q : PermQueryResult)
    (g : GumResult) (envs : List (PermQueryResult × GumResult)) :
    (startRecording true q g).gumCalls = 0 ∧
    (startRecording true q g).errorState = some stillBlockedError ∧
    stillBlockedError.errorId ≠ accessDeniedError.errorId ∧
    (runStarts true envs).2 = 0 := by
  refine ⟨rfl, rfl, by decide, ?_⟩
  induction envs with
  | nil => rfl
  | cons e rest ih =>
    obtain ⟨eq, eg⟩ := e
    show (startRecording true eq eg).gumCalls
      + (runStarts (startRecording true eq eg).permissionDenied rest).2 = 0
    rw [startRecording_blocked_state]
    exact Nat.add_eq_zero.mpr ⟨rfl, ih⟩

/-- Finalized blob: concatenation of the buffered chunks
(`new Blob(audioChunksRef.current)`). -/
def blobOf (chunks : List Chunk) : List Nat :=
  (chunks.map Chunk.data).flatten

/-- onstop from useAudioRecording.ts lines 152-162: the consumer callback
`onRecordingStop` is invoked with the concatenated blob only when
`audioChunksRef.current.length > 0 && onRecordingStop`; the returned
value is the blob the callback receives, or none when it is not invoked.
No error path exists. -/
def onstopFinalize (chunks : List Chunk) (hasStopCallback : Bool) :
    Option (List Nat) :=
  if chunks.length > 0 ∧ hasStopCallback = true then some (blobOf chunks)
  else none

/-- C5: with a consumer callback registered, the finalization callback is
invoked if and only if the chunk buffer is non-empty, it receives the
concatenation of all buffered chunks, and an empty buffer signals nothing
(and raises no error: onstopFinalize is total). -/
theorem onstop_finalization_iff (chunks : List Chunk) :
    ((onstopFinalize chunks true).isSome ↔ chunks ≠ []) ∧
    (chunks ≠ [] → onstopFinalize chunks true = some (blobOf chunks)) ∧
    onstopFinalize [] true = none := by
  refine ⟨?_, ?_, rfl⟩
  · unfold onstopFinalize
    rcases eq_or_ne chunks [] with h | h
    · subst h; simp
    · simp [h, List.length_pos, h]
  · intro h
    unfold onstopFinalize
    rw [if_pos ⟨List.length_pos.mpr h, rfl⟩]

/-- Witness for C5 at a concrete non-empty buffer. -/
theorem onstop_finalization_iff_witness :
    ([Chunk.mk [1, 2], Chunk.mk [3]] : List Chunk) ≠ [] ∧
    onstopFinalize [Chunk.mk [1, 2], Chunk.mk [3]] true
      = some (blobOf [Chunk.mk [1, 2], Chunk.mk [3]]) :=
  ⟨by simp,
    (onstop_finalization_iff [Chunk.mk [1, 2], Chunk.mk [3]]).2.1 (by simp)⟩

/-- Mute model of LiveCoach.tsx. `isMuted` is the live React state that
`toggleMute` (lines 193-195) flips via setIsMuted. `capturedIsMuted` is
the value of the render-time constant `isMuted` that the
`scriptProcessor.onaudioprocess` closure (lines 127-142) captured when it
was installed inside onopen: a later setIsMuted produces a new render with
a new constant, but cannot rebind the constant already captured by the
installed handler, so the handler's check `if (isMuted) return` always
reads the captured value. -/
structure LiveMuteModel where
  isMuted : Bool
  capturedIsMuted : Bool
deriving DecidableEq

/-- Connecting installs the onaudioprocess closure, capturing the current
isMuted value. -/
def connectCapture (isMuted : Bool) : LiveMuteModel :=
  { isMuted := isMuted, capturedIsMuted := isMuted }

/-- Events after connect: a mute toggle or an audio-process tick. -/
inductive LiveEvent
  | toggleMute
  | audioProcess
deriving DecidableEq

/-- One event step; the Bool result is whether sendRealtimeInput was
invoked for this event (true = a frame was sent on the remote channel). -/
def stepLive (s : LiveMuteModel) (e : LiveEvent) : LiveMuteModel × Bool :=
  match e with
  | .toggleMute => ({ s with isMuted := !s.isMuted }, false)
  | .audioProcess => (s, !s.capturedIsMuted)

/-- C6 (code bug): connect while unmuted, then toggle mute, then one
audio-process event — the mute flag is set, yet the frame is still sent,
because the installed handler reads the stale captured isMuted value. -/
theorem mute_staleClosure_bug :
    ((stepLive (connectCapture false) .toggleMute).1).isMuted = true ∧
    (stepLive (stepLive (connectCapture false) .toggleMute).1
      .audioProcess).2 = true := by
  decide

/-- Connection status of LiveCoach (the `status` React state). -/
inductive CoachStatus
  | idle
  | connecting
  | connected
  | errored
deriving DecidableEq

/-- Observable state touched (or, for the last two fields, observably NOT
touched) by disconnect in LiveCoach.tsx lines 27-47. `micTracksLive`
stands for the MediaStream tracks obtained by getUserMedia in connect
(line 56) — the stream is a local of connect, stored in no ref, and no
statement of disconnect stops its tracks. `remoteChannelOpen` stands for
the live session promise held in sessionRef (line 184) — no statement of
disconnect closes it. -/
structure LiveCoachState where
  animationFrame : Option Nat
  audioContextOpen : Bool
  inputContextOpen : Bool
  isConnected : Bool
  status : CoachStatus
  volumeLevel : Nat
  micTracksLive : Bool
  remoteChannelOpen : Bool
deriving DecidableEq

/-- disconnect from LiveCoach.tsx lines 27-47: cancel the animation
frame, close both audio contexts, reset isConnected/status/volumeLevel.
The microphone tracks and the remote session are not referenced. -/
def disconnect (s : LiveCoachState) : LiveCoachState :=
  { s with
    animationFrame := none
    audioContextOpen := false
    inputContextOpen := false
    isConnected := false
    status := .idle
    volumeLevel := 0 }

/-- C7 counterexample: on a fully connected state, disconnect leaves the
microphone tracks live and the remote channel open, so the claim that it
releases the device tracks and closes the remote channel is false. -/
theorem disconnect_counterexample :
    (disconnect ⟨some 7, true, true, true, .connected, 42, true, true⟩).micTracksLive
      = true ∧
    (disconnect ⟨some 7, true, true, true, .connected, 42, true, true⟩).remoteChannelOpen
      = true := by
  decide

/-- C7 (amended): disconnect cancels the visualization loop, closes both
audio contexts, and resets the session state to Idle (isConnected false,
status idle, volume 0); it leaves the microphone device tracks and the
remote channel exactly as they were — it neither releases nor closes
them. -/
theorem disconnect_teardown (s : LiveCoachState) :
    (disconnect s).animationFrame = none ∧
    (disconnect s).audioContextOpen = false ∧
    (disconnect s).inputContextOpen = false ∧
    (disconnect s).isConnected = false ∧
    (disconnect s).status = .idle ∧
    (disconnect s).volumeLevel = 0 ∧
    (disconnect s).micTracksLive = s.micTracksLive ∧
    (disconnect s).remoteChannelOpen = s.remoteChannelOpen :=
  ⟨rfl, rfl, rfl, rfl, rfl, rfl, rfl, rfl⟩

/-- Substring test modelling JS `String.prototype.includes`. -/
def errIncludes (s pat : String) : Bool := decide (pat.data <:+: s.data)

/-- Safety-flag test from DraftingAssistant.tsx line 161. -/
def matchesSafety (s : String) : Bool :=
  errIncludes s "safety" || errIncludes s "blocked"

/-- Rate-limit test from line 164. -/
def matchesRateLimit (s : String) : Bool :=
  errIncludes s "429" || errIncludes s "resource exhausted"

/-- Unclear-input test from line 167. -/
def matchesUnclear (s : String) : Bool :=
  errIncludes s "no response generated" || errIncludes s "candidate"

/-- Network test from line 170. -/
def matchesNetwork (s : String) : Bool :=
  errIncludes s "network" || errIncludes s "fetch"

/-- Failure categories named by the spec for RemoteRequestError. -/
inductive ErrCategory
  | safetyFlag
  | rateLimit
  | unclearInput
  | network
  | generic
deriving DecidableEq

/-- Categorizing if-chain from DraftingAssistant.tsx processAudioBlob
(lines 154-176): lowercase the failure's description, then test the
categories in source order, returning the title of the first match and
falling back to the generic title. -/
def processErrorTitle (err : String) : String :=
  if matchesSafety err.toLower then "Content Flagged"
  else if matchesRateLimit err.toLower then "High Traffic"
  else if matchesUnclear err.toLower then "Audio Unclear"
  else if matchesNetwork err.toLower then "Connection Error"
  else "Processing Failed"

/-- Modelled from the spec: category predicates in the spec's priority
order (safety-flag, rate-limit, unclear-input, network). -/
def categoryChecks : List ((String → Bool) × ErrCategory) :=
  [(matchesSafety, .safetyFlag), (matchesRateLimit, .rateLimit),
    (matchesUnclear, .unclearInput), (matchesNetwork, .network)]

/-- Modelled from the spec: the category of a failure description is the
first category in the priority list whose predicate matches the
lowercased description, falling back to generic — so a description
matching several categories gets the highest-priority one. -/
def specPriorityCategory (err : String) : ErrCategory :=
  ((categoryChecks.find? (fun p => p.1 err.toLower)).map Prod.snd).getD
    .generic

/-- Title displayed for each category in DraftingAssistant. -/
def titleFor : ErrCategory → String
  | .safetyFlag => "Content Flagged"
  | .rateLimit => "High Traffic"
  | .unclearInput => "Audio Unclear"
  | .network => "Connection Error"
  | .generic => "Processing Failed"

/-- C9: for every failure description, the code's categorizing if-chain
agrees with the spec's priority-ordered first-match categorization:
the displayed title is exactly that of the highest-priority matching
category, with the generic fallback when none matches. -/
theorem errorCategorization_priority (err : String) :
    processErrorTitle err = titleFor (specPriorityCategory err) := by
  unfold processErrorTitle specPriorityCategory categoryChecks
  cases hs : matchesSafety err.toLower <;>
    cases hr : matchesRateLimit err.toLower <;>
      cases hu : matchesUnclear err.toLower <;>
        cases hn : matchesNetwork err.toLower <;>
          simp [List.find?, hs, hr, hu, hn, titleFor]

end Mozhi
